import Mathlib

/-!
Verification of the window-stress program (`main.cpp`): a single control
loop that creates up to `WINDOW_COUNT` windows at random positions and
sizes inside the monitor work area, then jitters each window's position
and size every frame, clamped to stay inside the work area, at a paced
frame rate, until a quit condition fires.

The windowing library (GLFW) is the external collaborator: its calls are
modelled as emitted events (`Call`), its random distributions by oracle
streams constrained to the distribution's support, and its event delivery
(`glfwPollEvents` / `glfwWindowShouldClose` / key callback) by per-frame
boolean oracles.  Floating-point color and timing values are modelled as
exact rationals; the C cast `(int)` of a nonnegative value is modelled as
`Int.floor`.
-/

/-- `WINDOW_COUNT` constant (main.cpp line 38). -/
def WINDOW_COUNT : Nat := 100

/-- `TARGET_FPS` constant (main.cpp line 39). -/
def TARGET_FPS : ℚ := 60

/-- `MIN_SIZE` constant (main.cpp line 40). -/
def MIN_SIZE : Int := 80

/-- `MAX_SIZE` constant (main.cpp line 41). -/
def MAX_SIZE : Int := 220

/-- `JITTER_POS` constant (main.cpp line 42). -/
def JITTER_POS : Int := 8

/-- `JITTER_SIZE` constant (main.cpp line 43). -/
def JITTER_SIZE : Int := 40

/-- `dt_target = 1.0 / TARGET_FPS` (main.cpp line 115). -/
def dt_target : ℚ := 1 / TARGET_FPS

/-- The monitor work area returned by `glfwGetMonitorWorkarea`
(main.cpp lines 68-72): `workX, workY, workW, workH`. -/
structure WorkArea where
  x : Int
  y : Int
  w : Int
  h : Int

/-- The `Win` record (main.cpp lines 16-20).  The GLFW window pointer is
modelled as a numeric handle (the model assigns handle `i` to the `i`-th
successfully created window; GLFW guarantees distinct non-null pointers
for live windows).  The `float` color channels are modelled as rationals. -/
structure Win where
  handle : Nat
  r : ℚ
  g : ℚ
  b : ℚ
  x : Int
  y : Int
  w : Int
  h : Int

/-- `std::clamp(v, lo, hi)`: `v < lo ? lo : hi < v ? hi : v`. -/
def clampI (v lo hi : Int) : Int :=
  if v < lo then lo else if hi < v then hi else v

/-- Support of `std::uniform_int_distribution<int> sizeRand(MIN_SIZE, MAX_SIZE)`
(main.cpp line 65): the library contract is that every draw lies in the
closed range. -/
def sizeRandSupport (v : Int) : Prop := MIN_SIZE ≤ v ∧ v ≤ MAX_SIZE

/-- Support of `std::uniform_real_distribution<float> uni01(0.f, 1.f)`
(main.cpp line 62): draws lie in `[0, 1)`. -/
def uni01Support (q : ℚ) : Prop := 0 ≤ q ∧ q < 1

/-- One frame's per-window jitter draws (main.cpp lines 130-133):
`dw, dh` from `jitterSize`, `dx, dy` from `jitterPos`. -/
structure Jitter where
  dw : Int
  dh : Int
  dx : Int
  dy : Int

/-- Oracle streams for the RNG draws consumed during pool initialization
(main.cpp lines 84-104), indexed by window number: `sw, sh` are the
`sizeRand` draws for width and height, `ux, uy` the `uni01` draws used for
the position, `cr, cg, cb` the `uni01` draws for the color channels. -/
structure InitDraws where
  sw : Nat → Int
  sh : Nat → Int
  ux : Nat → ℚ
  uy : Nat → ℚ
  cr : Nat → ℚ
  cg : Nat → ℚ
  cb : Nat → ℚ

/-- All init draws lie in their distribution's support. -/
def drawsInSupport (d : InitDraws) : Prop :=
  ∀ i, sizeRandSupport (d.sw i) ∧ sizeRandSupport (d.sh i) ∧
    uni01Support (d.ux i) ∧ uni01Support (d.uy i)

/-- `(int)(uni01(rng) * std::max(1, span))` (main.cpp lines 87-88): the
cast truncates toward zero, which for the nonnegative values produced by
`uni01` is the floor. -/
def initOffset (q : ℚ) (span : Int) : Int :=
  Int.floor (q * ((max 1 span : Int) : ℚ))

/-- The `Win` record pushed for window `i` during initialization
(main.cpp lines 84-110): size from `sizeRand`, position
`work + (int)(uni01 * max(1, work extent - size))`, color from `uni01`. -/
def makeWin (wa : WorkArea) (d : InitDraws) (i : Nat) : Win :=
  { handle := i
    r := d.cr i
    g := d.cg i
    b := d.cb i
    x := wa.x + initOffset (d.ux i) (wa.w - d.sw i)
    y := wa.y + initOffset (d.uy i) (wa.h - d.sh i)
    w := d.sw i
    h := d.sh i }

/-- The window-creation loop (main.cpp lines 84-111): `createOk i` models
whether `glfwCreateWindow` succeeds for request `i`; on failure the loop
breaks, keeping only the windows created so far. -/
def initPoolAux (wa : WorkArea) (d : InitDraws) (createOk : Nat → Bool)
    (i : Nat) : Nat → List Win
  | 0 => []
  | n + 1 =>
    if createOk i then makeWin wa d i :: initPoolAux wa d createOk (i + 1) n
    else []

/-- The full pool produced by initialization (main.cpp lines 81-111). -/
def initPool (wa : WorkArea) (d : InitDraws) (createOk : Nat → Bool) : List Win :=
  initPoolAux wa d createOk 0 WINDOW_COUNT

/-- Calls issued to the windowing collaborator, tagged by window handle. -/
inductive Call where
  | setSize : Nat → Int → Int → Call
  | setPos : Nat → Int → Int → Call
  | render : Nat → ℚ → ℚ → ℚ → Call
  | destroy : Nat → Call
deriving DecidableEq

/-- The handle a call is addressed to. -/
def callHandle : Call → Nat
  | .setSize h _ _ => h
  | .setPos h _ _ => h
  | .render h _ _ _ => h
  | .destroy h => h

/-- Whether a call is a `glfwSetWindowSize` request. -/
def isSetSize : Call → Bool
  | .setSize _ _ _ => true
  | _ => false

/-- Whether a call is a `glfwSetWindowPos` request. -/
def isSetPos : Call → Bool
  | .setPos _ _ _ => true
  | _ => false

/-- `newW = std::clamp(w.w + dw, MIN_SIZE, MAX_SIZE)` (main.cpp line 135). -/
def newW (j : Jitter) (win : Win) : Int :=
  clampI (win.w + j.dw) MIN_SIZE MAX_SIZE

/-- `newH = std::clamp(w.h + dh, MIN_SIZE, MAX_SIZE)` (main.cpp line 136). -/
def newH (j : Jitter) (win : Win) : Int :=
  clampI (win.h + j.dh) MIN_SIZE MAX_SIZE

/-- `newX = std::clamp(w.x + dx, workX, workX + workW - newW)` (main.cpp line 138). -/
def newX (wa : WorkArea) (j : Jitter) (win : Win) : Int :=
  clampI (win.x + j.dx) wa.x (wa.x + wa.w - newW j win)

/-- `newY = std::clamp(w.y + dy, workY, workY + workH - newH)` (main.cpp line 139). -/
def newY (wa : WorkArea) (j : Jitter) (win : Win) : Int :=
  clampI (win.y + j.dy) wa.y (wa.y + wa.h - newH j win)

/-- The per-window frame body after the close check (main.cpp lines
129-155): jitter, clamp, conditional resize / reposition calls, record
update, then the solid-color render of the record's color. -/
def stepWin (wa : WorkArea) (j : Jitter) (win : Win) : Win × List Call :=
  let nW := newW j win
  let nH := newH j win
  let nX := newX wa j win
  let nY := newY wa j win
  ({ win with x := nX, y := nY, w := nW, h := nH },
    (if nW ≠ win.w ∨ nH ≠ win.h then [Call.setSize win.handle nW nH] else [])
      ++ (if nX ≠ win.x ∨ nY ≠ win.y then [Call.setPos win.handle nX nY] else [])
      ++ [Call.render win.handle win.r win.g win.b])

/-- One frame's external inputs: whether `glfwPollEvents` fires the quit
key callback (main.cpp lines 24-31, 120), the `glfwWindowShouldClose`
answer for each handle (line 124), the jitter draws for the `k`-th window
processed this frame (lines 130-133), and the frame body's elapsed time
(lines 159-160). -/
structure FrameInput where
  pollQuit : Bool
  shouldClose : Nat → Bool
  jit : Nat → Jitter
  elapsed : ℚ

/-- Result of the per-window pass: whether a close request set the quit
flag, the updated window list, and the calls issued. -/
structure PassResult where
  quitReq : Bool
  wins : List Win
  calls : List Call

/-- The per-window pass of one frame (main.cpp lines 123-156): in list
order, check `glfwWindowShouldClose`; on a close request set the quit
flag and break, leaving this and all later windows untouched; otherwise
jitter, update and render the window. -/
def windowPass (wa : WorkArea) (ins : FrameInput) (i : Nat) :
    List Win → PassResult
  | [] => ⟨false, [], []⟩
  | win :: rest =>
    if ins.shouldClose win.handle then ⟨true, win :: rest, []⟩
    else
      let s := stepWin wa (ins.jit i) win
      let r := windowPass wa ins (i + 1) rest
      ⟨r.quitReq, s.1 :: r.wins, s.2 ++ r.calls⟩

/-- `sleepSec = dt_target - elapsed; if (sleepSec > 0) sleep_for(sleepSec)`
(main.cpp lines 161-164): the duration actually slept. -/
def sleepDuration (elapsed : ℚ) : ℚ :=
  let sleepSec := dt_target - elapsed
  if 0 < sleepSec then sleepSec else 0

/-- The loop state: the process-wide `g_quit` flag (main.cpp line 22) and
the window list `wins` (line 81). -/
structure LoopState where
  quit : Bool
  wins : List Win

/-- Result of one frame: updated state, calls issued, duration slept. -/
structure FrameResult where
  state : LoopState
  calls : List Call
  sleep : ℚ

/-- One iteration of the main loop body (main.cpp lines 117-165):
`glfwPollEvents` may set the quit flag via the key callback, then the
per-window pass runs (regardless of the flag: it is only re-checked at
the top of the loop), then the pacing sleep. -/
def frame (wa : WorkArea) (ins : FrameInput) (s : LoopState) : FrameResult :=
  let quitAfterPoll := s.quit || ins.pollQuit
  let p := windowPass wa ins 0 s.wins
  { state := { quit := quitAfterPoll || p.quitReq, wins := p.wins }
    calls := p.calls
    sleep := sleepDuration ins.elapsed }

/-- Result of running the main loop: final state, number of frames
executed, and the pacing sleep of each executed frame in order. -/
structure RunResult where
  final : LoopState
  frames : Nat
  sleeps : List ℚ

/-- The main loop `while (!g_quit)` (main.cpp lines 117-165), modelled
with fuel: `ins k` supplies frame `k`'s external inputs; the loop stops
as soon as the quit flag is observed at the top of an iteration. -/
def runLoop (wa : WorkArea) : (Nat → FrameInput) → Nat → LoopState → RunResult
  | _, 0, s => ⟨s, 0, []⟩
  | ins, fuel + 1, s =>
    if s.quit then ⟨s, 0, []⟩
    else
      let f := frame wa (ins 0) s
      let r := runLoop wa (fun k => ins (k + 1)) fuel f.state
      ⟨r.final, r.frames + 1, f.sleep :: r.sleeps⟩

/-- The shutdown pass (main.cpp lines 168-170): one `glfwDestroyWindow`
per recorded window.  Every recorded handle is non-null (only successful
creations are pushed), so the `if (w.handle)` guard always passes. -/
def cleanupCalls (wins : List Win) : List Call :=
  wins.map (fun w => Call.destroy w.handle)

/-- The process environment: whether `glfwInit` succeeds (main.cpp line
45), the work area, the init draws, the per-request creation outcomes,
and the per-frame inputs. -/
structure Env where
  glfwInitOk : Bool
  wa : WorkArea
  draws : InitDraws
  createOk : Nat → Bool
  ins : Nat → FrameInput

/-- Observable outcome of a terminating execution of `main`. -/
structure MainResult where
  exitCode : Nat
  createdHandles : List Nat
  destroyCalls : List Call

/-- `main` (main.cpp lines 33-173), modelled with fuel: returns `none`
when the loop has not yet observed the quit flag within `fuel` frames
(the process is still running).  On `glfwInit` failure it returns exit
code 1 before any window is created; otherwise it initializes the pool,
runs the loop, destroys every recorded window and returns exit code 0. -/
def progMain (e : Env) (fuel : Nat) : Option MainResult :=
  if e.glfwInitOk = false then some ⟨1, [], []⟩
  else
    let pool := initPool e.wa e.draws e.createOk
    let r := runLoop e.wa e.ins fuel ⟨false, pool⟩
    if r.final.quit then
      some ⟨0, pool.map Win.handle, cleanupCalls r.final.wins⟩
    else none

/-- The claimed bounds invariant on a window record: size within
`[MIN_SIZE, MAX_SIZE]` and the rectangle inside the work area. -/
def winInBounds (wa : WorkArea) (win : Win) : Prop :=
  MIN_SIZE ≤ win.w ∧ win.w ≤ MAX_SIZE ∧ MIN_SIZE ≤ win.h ∧ win.h ≤ MAX_SIZE ∧
    wa.x ≤ win.x ∧ win.x ≤ wa.x + wa.w - win.w ∧
    wa.y ≤ win.y ∧ win.y ≤ wa.y + wa.h - win.h

/-- The color triple of a record. -/
def colorOf (win : Win) : ℚ × ℚ × ℚ := (win.r, win.g, win.b)

theorem MIN_le_MAX : MIN_SIZE ≤ MAX_SIZE := by decide

theorem le_clampI (v : Int) {lo hi : Int} (h : lo ≤ hi) : lo ≤ clampI v lo hi := by
  unfold clampI
  split_ifs <;> omega

theorem clampI_le (v : Int) {lo hi : Int} (h : lo ≤ hi) : clampI v lo hi ≤ hi := by
  unfold clampI
  split_ifs <;> omega

theorem newW_bounds (j : Jitter) (win : Win) :
    MIN_SIZE ≤ newW j win ∧ newW j win ≤ MAX_SIZE :=
  ⟨le_clampI _ MIN_le_MAX, clampI_le _ MIN_le_MAX⟩

theorem newH_bounds (j : Jitter) (win : Win) :
    MIN_SIZE ≤ newH j win ∧ newH j win ≤ MAX_SIZE :=
  ⟨le_clampI _ MIN_le_MAX, clampI_le _ MIN_le_MAX⟩

theorem initOffset_nonneg {q : ℚ} (hq : 0 ≤ q) (span : Int) :
    0 ≤ initOffset q span := by
  have hM : (0 : Int) ≤ max 1 span := le_trans Int.one_nonneg (le_max_left 1 span)
  have hM' : (0 : ℚ) ≤ ((max 1 span : Int) : ℚ) := by exact_mod_cast hM
  exact Int.le_floor.mpr (by simpa using mul_nonneg hq hM')

theorem initOffset_lt {q : ℚ} (hq1 : q < 1) (span : Int) :
    initOffset q span < max 1 span := by
  have hM : (0 : Int) < max 1 span := lt_of_lt_of_le Int.one_pos (le_max_left 1 span)
  have hM' : (0 : ℚ) < ((max 1 span : Int) : ℚ) := by exact_mod_cast hM
  refine Int.floor_lt.mpr ?_
  calc q * ((max 1 span : Int) : ℚ) < 1 * ((max 1 span : Int) : ℚ) :=
        mul_lt_mul_of_pos_right hq1 hM'
    _ = ((max 1 span : Int) : ℚ) := one_mul _

theorem initOffset_le_of_nonneg {q : ℚ} (hq1 : q < 1) {span : Int}
    (hs : 0 ≤ span) : initOffset q span ≤ span := by
  have h := initOffset_lt hq1 span
  omega

/-- Concrete work area used in witnesses. -/
def waW : WorkArea := ⟨0, 0, 1000, 800⟩

/-- Concrete init-draw streams used in witnesses. -/
def drawsW : InitDraws where
  sw := fun _ => 100
  sh := fun _ => 120
  ux := fun _ => 1/2
  uy := fun _ => 1/3
  cr := fun _ => 1/4
  cg := fun _ => 1/5
  cb := fun _ => 2/5

/-- Concrete window record used in witnesses. -/
def winW : Win := ⟨0, 1/4, 1/5, 2/5, 10, 20, 100, 120⟩

/-- Concrete jitter used in witnesses. -/
def jitW : Jitter := ⟨5, -3, 2, -1⟩

/-- C7: each initial width and height is drawn from `[MIN_SIZE, MAX_SIZE]`,
and the initial position offset puts `x` in
`[workX, workX + max(1, workW - width))` (symmetrically for `y`); whenever
the work area can accommodate the drawn size, the rectangle lies fully
inside the work area. -/
theorem spec_c7_init_layout (wa : WorkArea) (d : InitDraws) (i : Nat)
    (hsw : sizeRandSupport (d.sw i)) (hsh : sizeRandSupport (d.sh i))
    (hux : uni01Support (d.ux i)) (huy : uni01Support (d.uy i)) :
    (MIN_SIZE ≤ (makeWin wa d i).w ∧ (makeWin wa d i).w ≤ MAX_SIZE) ∧
    (MIN_SIZE ≤ (makeWin wa d i).h ∧ (makeWin wa d i).h ≤ MAX_SIZE) ∧
    (wa.x ≤ (makeWin wa d i).x ∧
      (makeWin wa d i).x < wa.x + max 1 (wa.w - (makeWin wa d i).w)) ∧
    (wa.y ≤ (makeWin wa d i).y ∧
      (makeWin wa d i).y < wa.y + max 1 (wa.h - (makeWin wa d i).h)) ∧
    ((makeWin wa d i).w ≤ wa.w →
      (makeWin wa d i).x ≤ wa.x + wa.w - (makeWin wa d i).w) ∧
    ((makeWin wa d i).h ≤ wa.h →
      (makeWin wa d i).y ≤ wa.y + wa.h - (makeWin wa d i).h) := by
  have hx0 : 0 ≤ initOffset (d.ux i) (wa.w - d.sw i) := initOffset_nonneg hux.1 _
  have hy0 : 0 ≤ initOffset (d.uy i) (wa.h - d.sh i) := initOffset_nonneg huy.1 _
  have hx1 : initOffset (d.ux i) (wa.w - d.sw i) < max 1 (wa.w - d.sw i) :=
    initOffset_lt hux.2 _
  have hy1 : initOffset (d.uy i) (wa.h - d.sh i) < max 1 (wa.h - d.sh i) :=
    initOffset_lt huy.2 _
  have hxle : d.sw i ≤ wa.w →
      initOffset (d.ux i) (wa.w - d.sw i) ≤ wa.w - d.sw i :=
    fun h => initOffset_le_of_nonneg hux.2 (by omega)
  have hyle : d.sh i ≤ wa.h →
      initOffset (d.uy i) (wa.h - d.sh i) ≤ wa.h - d.sh i :=
    fun h => initOffset_le_of_nonneg huy.2 (by omega)
  refine ⟨⟨hsw.1, hsw.2⟩, ⟨hsh.1, hsh.2⟩, ⟨?_, ?_⟩, ⟨?_, ?_⟩, ?_, ?_⟩ <;>
    simp only [makeWin] <;> omega

/-- Witness for C7 at concrete inputs. -/
theorem spec_c7_init_layout_witness :
    (sizeRandSupport (drawsW.sw 0) ∧ sizeRandSupport (drawsW.sh 0) ∧
      uni01Support (drawsW.ux 0) ∧ uni01Support (drawsW.uy 0)) ∧
    ((MIN_SIZE ≤ (makeWin waW drawsW 0).w ∧ (makeWin waW drawsW 0).w ≤ MAX_SIZE) ∧
     (MIN_SIZE ≤ (makeWin waW drawsW 0).h ∧ (makeWin waW drawsW 0).h ≤ MAX_SIZE) ∧
     (waW.x ≤ (makeWin waW drawsW 0).x ∧
       (makeWin waW drawsW 0).x < waW.x + max 1 (waW.w - (makeWin waW drawsW 0).w)) ∧
     (waW.y ≤ (makeWin waW drawsW 0).y ∧
       (makeWin waW drawsW 0).y < waW.y + max 1 (waW.h - (makeWin waW drawsW 0).h)) ∧
     ((makeWin waW drawsW 0).w ≤ waW.w →
       (makeWin waW drawsW 0).x ≤ waW.x + waW.w - (makeWin waW drawsW 0).w) ∧
     ((makeWin waW drawsW 0).h ≤ waW.h →
       (makeWin waW drawsW 0).y ≤ waW.y + waW.h - (makeWin waW drawsW 0).h)) :=
  ⟨⟨by norm_num [sizeRandSupport, drawsW, MIN_SIZE, MAX_SIZE],
    by norm_num [sizeRandSupport, drawsW, MIN_SIZE, MAX_SIZE],
    by norm_num [uni01Support, drawsW],
    by norm_num [uni01Support, drawsW]⟩,
   spec_c7_init_layout waW drawsW 0
     (by norm_num [sizeRandSupport, drawsW, MIN_SIZE, MAX_SIZE])
     (by norm_num [sizeRandSupport, drawsW, MIN_SIZE, MAX_SIZE])
     (by norm_num [uni01Support, drawsW])
     (by norm_num [uni01Support, drawsW])⟩

/-- C10: the per-frame position clamps always have ordered bounds when the
work area accommodates `MAX_SIZE`: the computed new sizes lie in
`[MIN_SIZE, MAX_SIZE]`, hence `workX ≤ workX + workW - newW` (and
symmetrically for y), so the inverted-bounds clamp (undefined behavior)
is unreachable, for every window state and every jitter. -/
theorem spec_c10_clamp_bounds_ordered (wa : WorkArea) (j : Jitter) (win : Win)
    (hW : MAX_SIZE ≤ wa.w) (hH : MAX_SIZE ≤ wa.h) :
    (MIN_SIZE ≤ newW j win ∧ newW j win ≤ MAX_SIZE) ∧
    (MIN_SIZE ≤ newH j win ∧ newH j win ≤ MAX_SIZE) ∧
    wa.x ≤ wa.x + wa.w - newW j win ∧
    wa.y ≤ wa.y + wa.h - newH j win := by
  have h1 := newW_bounds j win
  have h2 := newH_bounds j win
  exact ⟨h1, h2, by omega, by omega⟩

/-- Witness for C10 at concrete inputs. -/
theorem spec_c10_clamp_bounds_ordered_witness :
    (MAX_SIZE ≤ waW.w ∧ MAX_SIZE ≤ waW.h) ∧
    ((MIN_SIZE ≤ newW jitW winW ∧ newW jitW winW ≤ MAX_SIZE) ∧
     (MIN_SIZE ≤ newH jitW winW ∧ newH jitW winW ≤ MAX_SIZE) ∧
     waW.x ≤ waW.x + waW.w - newW jitW winW ∧
     waW.y ≤ waW.y + waW.h - newH jitW winW) :=
  ⟨⟨by decide, by decide⟩,
   spec_c10_clamp_bounds_ordered waW jitW winW (by decide) (by decide)⟩

/-- C5: in each per-window step, exactly one resize call is issued when the
computed new size differs from the stored size and none otherwise, and
exactly one reposition call is issued when the computed new position
differs from the stored position and none otherwise — two independent
conditions. -/
theorem spec_c5_conditional_calls (wa : WorkArea) (j : Jitter) (win : Win) :
    (((stepWin wa j win).2.filter isSetSize).length
        = if newW j win ≠ win.w ∨ newH j win ≠ win.h then 1 else 0) ∧
    (((stepWin wa j win).2.filter isSetPos).length
        = if newX wa j win ≠ win.x ∨ newY wa j win ≠ win.y then 1 else 0) ∧
    (Call.setSize win.handle (newW j win) (newH j win) ∈ (stepWin wa j win).2
        ↔ (newW j win ≠ win.w ∨ newH j win ≠ win.h)) ∧
    (Call.setPos win.handle (newX wa j win) (newY wa j win) ∈ (stepWin wa j win).2
        ↔ (newX wa j win ≠ win.x ∨ newY wa j win ≠ win.y)) := by
  by_cases hs : newW j win ≠ win.w ∨ newH j win ≠ win.h <;>
    by_cases hp : newX wa j win ≠ win.x ∨ newY wa j win ≠ win.y <;>
      simp [stepWin, hs, hp, isSetSize, isSetPos]

theorem stepWin_handle (wa : WorkArea) (j : Jitter) (win : Win) :
    (stepWin wa j win).1.handle = win.handle := rfl

theorem stepWin_colorOf (wa : WorkArea) (j : Jitter) (win : Win) :
    colorOf (stepWin wa j win).1 = colorOf win := rfl

theorem windowPass_map {α : Type} (wa : WorkArea) (ins : FrameInput) (f : Win → α)
    (hf : ∀ j w, f (stepWin wa j w).1 = f w) (i : Nat) (wins : List Win) :
    ((windowPass wa ins i wins).wins).map f = wins.map f := by
  induction wins generalizing i with
  | nil => rfl
  | cons win rest ih =>
    by_cases h : ins.shouldClose win.handle = true
    · simp [windowPass, h]
    · simp [windowPass, h, hf, ih]

theorem frame_map {α : Type} (wa : WorkArea) (ins : FrameInput) (s : LoopState)
    (f : Win → α) (hf : ∀ j w, f (stepWin wa j w).1 = f w) :
    ((frame wa ins s).state.wins).map f = s.wins.map f :=
  windowPass_map wa ins f hf 0 s.wins

theorem runLoop_map {α : Type} (wa : WorkArea) (f : Win → α)
    (hf : ∀ j w, f (stepWin wa j w).1 = f w) (fuel : Nat) (ins : Nat → FrameInput)
    (s : LoopState) :
    (((runLoop wa ins fuel s).final.wins).map f = s.wins.map f) := by
  induction fuel generalizing ins s with
  | zero => rfl
  | succ n ih =>
    by_cases h : s.quit = true
    · simp [runLoop, h]
    · simp only [runLoop, h, Bool.false_eq_true, if_false]
      rw [ih]
      exact frame_map wa (ins 0) s f hf

theorem runLoop_of_quit (wa : WorkArea) (ins : Nat → FrameInput) (fuel : Nat)
    (s : LoopState) (h : s.quit = true) : runLoop wa ins fuel s = ⟨s, 0, []⟩ := by
  cases fuel <;> simp [runLoop, h]

theorem runLoop_frames_le (wa : WorkArea) (k : Nat) :
    ∀ (ins : Nat → FrameInput) (s : LoopState),
      (runLoop wa ins (k + 1) s).final.quit = true →
      ∀ fuel, (runLoop wa ins fuel s).frames ≤ k + 1 := by
  induction k with
  | zero =>
    intro ins s hq fuel
    by_cases h : s.quit = true
    · rw [runLoop_of_quit wa ins fuel s h]
      exact Nat.zero_le _
    · have hq' : (frame wa (ins 0) s).state.quit = true := by
        simpa [runLoop, h] using hq
      cases fuel with
      | zero => simp [runLoop]
      | succ n =>
        have h0 := runLoop_of_quit wa (fun j => ins (j + 1)) n
          (frame wa (ins 0) s).state hq'
        simp [runLoop, h, h0]
  | succ m ih =>
    intro ins s hq fuel
    by_cases h : s.quit = true
    · rw [runLoop_of_quit wa ins fuel s h]
      exact Nat.zero_le _
    · have hq' : (runLoop wa (fun j => ins (j + 1)) (m + 1)
          (frame wa (ins 0) s).state).final.quit = true := by
        simpa [runLoop, h] using hq
      cases fuel with
      | zero => simp [runLoop]
      | succ n =>
        have hle := ih (fun j => ins (j + 1)) (frame wa (ins 0) s).state hq' n
        simp only [runLoop, h, Bool.false_eq_true, if_false]
        omega

theorem initPoolAux_handle_ge (wa : WorkArea) (d : InitDraws) (c : Nat → Bool) :
    ∀ (n i : Nat) (w : Win), w ∈ initPoolAux wa d c i n → i ≤ w.handle := by
  intro n
  induction n with
  | zero =>
    intro i w h
    simp [initPoolAux] at h
  | succ m ih =>
    intro i w h
    by_cases hc : c i = true
    · simp only [initPoolAux, hc, if_true, List.mem_cons] at h
      rcases h with h | h
      · subst h
        simp [makeWin]
      · exact Nat.le_of_succ_le (ih (i + 1) w h)
    · simp [initPoolAux, hc] at h

theorem initPoolAux_handles_nodup (wa : WorkArea) (d : InitDraws) (c : Nat → Bool) :
    ∀ (n i : Nat), ((initPoolAux wa d c i n).map Win.handle).Nodup := by
  intro n
  induction n with
  | zero => intro i; simp [initPoolAux]
  | succ m ih =>
    intro i
    by_cases hc : c i = true
    · simp only [initPoolAux, hc, if_true, List.map_cons]
      refine List.nodup_cons.mpr ⟨?_, ih (i + 1)⟩
      intro hmem
      rcases List.mem_map.mp hmem with ⟨w, hw, hwh⟩
      have := initPoolAux_handle_ge wa d c m (i + 1) w hw
      simp [makeWin] at hwh
      omega
    · simp [initPoolAux, hc]

theorem stepWin_calls_handle (wa : WorkArea) (j : Jitter) (win : Win) :
    ∀ cc ∈ (stepWin wa j win).2, callHandle cc = win.handle := by
  intro cc hcc
  by_cases h1 : newW j win ≠ win.w ∨ newH j win ≠ win.h
  · by_cases h2 : newX wa j win ≠ win.x ∨ newY wa j win ≠ win.y
    · simp [stepWin, h1, h2] at hcc
      rcases hcc with rfl | rfl | rfl <;> rfl
    · simp [stepWin, h1, h2] at hcc
      rcases hcc with rfl | rfl <;> rfl
  · by_cases h2 : newX wa j win ≠ win.x ∨ newY wa j win ≠ win.y
    · simp [stepWin, h1, h2] at hcc
      rcases hcc with rfl | rfl <;> rfl
    · simp [stepWin, h1, h2] at hcc
      subst hcc
      rfl

theorem windowPass_close (wa : WorkArea) (ins : FrameInput) :
    ∀ (wins : List Win) (j i : Nat) (hj : j < wins.length),
      ins.shouldClose ((wins.get ⟨j, hj⟩).handle) = true →
      (∀ w ∈ wins.take j, ins.shouldClose w.handle = false) →
      (windowPass wa ins i wins).quitReq = true ∧
      (windowPass wa ins i wins).wins.drop j = wins.drop j ∧
      ∀ cc ∈ (windowPass wa ins i wins).calls,
        callHandle cc ∈ (wins.take j).map Win.handle := by
  intro wins
  induction wins with
  | nil =>
    intro j i hj
    exact absurd hj (Nat.not_lt_zero j)
  | cons win rest ih =>
    intro j i hj hclose hbefore
    cases j with
    | zero =>
      have hc : ins.shouldClose win.handle = true := hclose
      refine ⟨?_, ?_, ?_⟩ <;> simp [windowPass, hc]
    | succ m =>
      have hc : ¬ ins.shouldClose win.handle = true := by
        have := hbefore win (by simp)
        simp [this]
      have hj' : m < rest.length := Nat.lt_of_succ_lt_succ hj
      have hclose' : ins.shouldClose ((rest.get ⟨m, hj'⟩).handle) = true := hclose
      have hbefore' : ∀ w ∈ rest.take m, ins.shouldClose w.handle = false := by
        intro w hw
        exact hbefore w (by simp [hw])
      obtain ⟨h1, h2, h3⟩ := ih m (i + 1) hj' hclose' hbefore'
      refine ⟨?_, ?_, ?_⟩
      · simpa [windowPass, hc] using h1
      · simpa [windowPass, hc] using h2
      · intro cc hcc
        simp only [windowPass, hc, if_false, eq_self_iff_true] at hcc
        rw [List.take_succ_cons, List.map_cons]
        rcases List.mem_append.mp hcc with hcc | hcc
        · rw [stepWin_calls_handle wa (ins.jit i) win cc hcc]
          exact List.mem_cons_self _ _
        · exact List.mem_cons_of_mem _ (h3 cc hcc)

/-- C3: during the per-window pass, if the first window reporting a close
request is at index `j`, the quit flag is set, every window at index `j`
or later is left untouched, every call issued belongs to a window before
index `j`, and the frame ends with the quit flag raised (ending the whole
session rather than removing that window). -/
theorem spec_c3_close_ends_session (wa : WorkArea) (ins : FrameInput)
    (wins : List Win) (j : Nat) (hj : j < wins.length)
    (hclose : ins.shouldClose ((wins.get ⟨j, hj⟩).handle) = true)
    (hbefore : ∀ w ∈ wins.take j, ins.shouldClose w.handle = false) :
    (windowPass wa ins 0 wins).quitReq = true ∧
    (windowPass wa ins 0 wins).wins.drop j = wins.drop j ∧
    (∀ cc ∈ (windowPass wa ins 0 wins).calls,
      callHandle cc ∈ (wins.take j).map Win.handle) ∧
    ∀ s : LoopState, s.wins = wins → (frame wa ins s).state.quit = true := by
  obtain ⟨h1, h2, h3⟩ := windowPass_close wa ins wins j 0 hj hclose hbefore
  refine ⟨h1, h2, h3, ?_⟩
  intro s hs
  simp [frame, hs, h1]

/-- Frame input used in witnesses for the close path. -/
def insC : FrameInput where
  pollQuit := false
  shouldClose := fun _ => true
  jit := fun _ => ⟨0, 0, 0, 0⟩
  elapsed := 0

/-- Witness for C3 at concrete inputs. -/
theorem spec_c3_close_ends_session_witness :
    insC.shouldClose (([winW].get ⟨0, Nat.zero_lt_one⟩).handle) = true ∧
    ((windowPass waW insC 0 [winW]).quitReq = true ∧
     (windowPass waW insC 0 [winW]).wins.drop 0 = [winW].drop 0 ∧
     (∀ cc ∈ (windowPass waW insC 0 [winW]).calls,
       callHandle cc ∈ ([winW].take 0).map Win.handle) ∧
     ∀ s : LoopState, s.wins = [winW] → (frame waW insC s).state.quit = true) :=
  ⟨rfl, spec_c3_close_ends_session waW insC [winW] 0 Nat.zero_lt_one rfl
    (by intro w hw; simp at hw)⟩

theorem stepWin_fields (wa : WorkArea) (j : Jitter) (win : Win) :
    (stepWin wa j win).1.w = newW j win ∧ (stepWin wa j win).1.h = newH j win ∧
    (stepWin wa j win).1.x = newX wa j win ∧ (stepWin wa j win).1.y = newY wa j win :=
  ⟨rfl, rfl, rfl, rfl⟩

theorem stepWin_inBounds (wa : WorkArea) (j : Jitter) (win : Win)
    (hW : MAX_SIZE ≤ wa.w) (hH : MAX_SIZE ≤ wa.h) :
    winInBounds wa (stepWin wa j win).1 := by
  obtain ⟨hw, hh, hx, hy⟩ := stepWin_fields wa j win
  have h1 := newW_bounds j win
  have h2 := newH_bounds j win
  have hxlo : wa.x ≤ wa.x + wa.w - newW j win := by omega
  have hylo : wa.y ≤ wa.y + wa.h - newH j win := by omega
  refine ⟨?_, ?_, ?_, ?_, ?_, ?_, ?_, ?_⟩ <;> simp only [hw, hh, hx, hy]
  · exact h1.1
  · exact h1.2
  · exact h2.1
  · exact h2.2
  · simp only [newX]
    exact le_clampI _ hxlo
  · simp only [newX]
    exact clampI_le _ hxlo
  · simp only [newY]
    exact le_clampI _ hylo
  · simp only [newY]
    exact clampI_le _ hylo

theorem windowPass_inBounds (wa : WorkArea) (ins : FrameInput)
    (hW : MAX_SIZE ≤ wa.w) (hH : MAX_SIZE ≤ wa.h) (wins : List Win) :
    ∀ i : Nat, (∀ w ∈ wins, winInBounds wa w) →
      ∀ w ∈ (windowPass wa ins i wins).wins, winInBounds wa w := by
  induction wins with
  | nil =>
    intro i _ w hw
    simp [windowPass] at hw
  | cons win rest ih =>
    intro i hall w hw
    by_cases hc : ins.shouldClose win.handle = true
    · simp only [windowPass, hc, if_true] at hw
      exact hall w hw
    · simp only [windowPass, hc, if_false, eq_self_iff_true] at hw
      rcases List.mem_cons.mp hw with rfl | hw'
      · exact stepWin_inBounds wa (ins.jit i) win hW hH
      · exact ih (i + 1) (fun u hu => hall u (List.mem_cons_of_mem _ hu)) w hw'

theorem runLoop_inBounds (wa : WorkArea) (hW : MAX_SIZE ≤ wa.w)
    (hH : MAX_SIZE ≤ wa.h) (fuel : Nat) :
    ∀ (ins : Nat → FrameInput) (s : LoopState),
      (∀ w ∈ s.wins, winInBounds wa w) →
      ∀ w ∈ (runLoop wa ins fuel s).final.wins, winInBounds wa w := by
  induction fuel with
  | zero => intro ins s hall; exact hall
  | succ n ih =>
    intro ins s hall
    by_cases h : s.quit = true
    · rw [runLoop_of_quit wa ins _ s h]
      exact hall
    · simp only [runLoop, h, Bool.false_eq_true, if_false]
      exact ih (fun k => ins (k + 1)) (frame wa (ins 0) s).state
        (windowPass_inBounds wa (ins 0) hW hH s.wins 0 hall)

theorem initPoolAux_mem (wa : WorkArea) (d : InitDraws) (c : Nat → Bool) :
    ∀ (n i : Nat) (w : Win), w ∈ initPoolAux wa d c i n → ∃ k, w = makeWin wa d k := by
  intro n
  induction n with
  | zero =>
    intro i w hw
    simp [initPoolAux] at hw
  | succ m ih =>
    intro i w hw
    by_cases hc : c i = true
    · simp only [initPoolAux, hc, if_true, List.mem_cons] at hw
      rcases hw with rfl | hw
      · exact ⟨i, rfl⟩
      · exact ih (i + 1) w hw
    · simp [initPoolAux, hc] at hw

theorem makeWin_inBounds (wa : WorkArea) (d : InitDraws) (i : Nat)
    (hW : MAX_SIZE ≤ wa.w) (hH : MAX_SIZE ≤ wa.h) (hd : drawsInSupport d) :
    winInBounds wa (makeWin wa d i) := by
  obtain ⟨hsw, hsh, hux, huy⟩ := hd i
  obtain ⟨hsw1, hsw2⟩ := hsw
  obtain ⟨hsh1, hsh2⟩ := hsh
  have hx0 : 0 ≤ initOffset (d.ux i) (wa.w - d.sw i) := initOffset_nonneg hux.1 _
  have hy0 : 0 ≤ initOffset (d.uy i) (wa.h - d.sh i) := initOffset_nonneg huy.1 _
  have hxle : initOffset (d.ux i) (wa.w - d.sw i) ≤ wa.w - d.sw i :=
    initOffset_le_of_nonneg hux.2 (by omega)
  have hyle : initOffset (d.uy i) (wa.h - d.sh i) ≤ wa.h - d.sh i :=
    initOffset_le_of_nonneg huy.2 (by omega)
  refine ⟨?_, ?_, ?_, ?_, ?_, ?_, ?_, ?_⟩ <;> simp only [makeWin] <;> omega

/-- C1: under a work area that accommodates `MAX_SIZE` and RNG draws in
their distributions' support, every window record satisfies
`MIN_SIZE ≤ width, height ≤ MAX_SIZE` with its rectangle fully inside the
work area, both in the initial layout and after any number of frames of
the jitter loop. -/
theorem spec_c1_bounds_invariant (wa : WorkArea) (d : InitDraws)
    (c : Nat → Bool) (ins : Nat → FrameInput) (fuel : Nat)
    (hW : MAX_SIZE ≤ wa.w) (hH : MAX_SIZE ≤ wa.h) (hd : drawsInSupport d) :
    (∀ win ∈ initPool wa d c, winInBounds wa win) ∧
    ∀ s : LoopState, (∀ win ∈ s.wins, winInBounds wa win) →
      ∀ win ∈ (runLoop wa ins fuel s).final.wins, winInBounds wa win := by
  constructor
  · intro win hwin
    obtain ⟨k, rfl⟩ := initPoolAux_mem wa d c WINDOW_COUNT 0 win hwin
    exact makeWin_inBounds wa d k hW hH hd
  · intro s hall
    exact runLoop_inBounds wa hW hH fuel ins s hall

theorem drawsW_support : drawsInSupport drawsW := by
  intro i
  refine ⟨⟨?_, ?_⟩, ⟨?_, ?_⟩, ⟨?_, ?_⟩, ⟨?_, ?_⟩⟩ <;>
    norm_num [drawsW, MIN_SIZE, MAX_SIZE]

/-- Frame-input stream used in witnesses: the quit key fires every frame. -/
def insW : Nat → FrameInput := fun _ =>
  { pollQuit := true
    shouldClose := fun _ => false
    jit := fun _ => ⟨0, 0, 0, 0⟩
    elapsed := 0 }

/-- Creation oracle used in witnesses: only the first request succeeds. -/
def createOkW : Nat → Bool := fun i => i == 0

/-- Witness for C1 at concrete inputs. -/
theorem spec_c1_bounds_invariant_witness :
    (MAX_SIZE ≤ waW.w ∧ MAX_SIZE ≤ waW.h ∧ drawsInSupport drawsW) ∧
    ((∀ win ∈ initPool waW drawsW createOkW, winInBounds waW win) ∧
     ∀ s : LoopState, (∀ win ∈ s.wins, winInBounds waW win) →
       ∀ win ∈ (runLoop waW insW 3 s).final.wins, winInBounds waW win) :=
  ⟨⟨by decide, by decide, drawsW_support⟩,
   spec_c1_bounds_invariant waW drawsW createOkW insW 3 (by decide) (by decide)
     drawsW_support⟩

/-- C2: once a quit condition has fired — i.e. the run with `k + 1` frames
of fuel already ends with the quit flag set — the loop executes at most
`k + 1` frames no matter how much more fuel it is given, and the shutdown
pass destroys every window created by initialization exactly once. -/
theorem spec_c2_quit_and_cleanup (wa : WorkArea) (d : InitDraws)
    (c : Nat → Bool) (ins : Nat → FrameInput) (k fuel : Nat)
    (hq : (runLoop wa ins (k + 1) ⟨false, initPool wa d c⟩).final.quit = true) :
    (runLoop wa ins fuel ⟨false, initPool wa d c⟩).frames ≤ k + 1 ∧
    ∀ h ∈ (initPool wa d c).map Win.handle,
      (cleanupCalls
        (runLoop wa ins fuel ⟨false, initPool wa d c⟩).final.wins).count
        (Call.destroy h) = 1 := by
  constructor
  · exact runLoop_frames_le wa k ins ⟨false, initPool wa d c⟩ hq fuel
  · intro h hmem
    have hmap : ((runLoop wa ins fuel
            ⟨false, initPool wa d c⟩).final.wins).map Win.handle
        = (initPool wa d c).map Win.handle :=
      runLoop_map wa Win.handle (fun j w => stepWin_handle wa j w) fuel ins _
    have hinj : Function.Injective Call.destroy := by
      intro a b hab
      injection hab
    have hcc : cleanupCalls
          (runLoop wa ins fuel ⟨false, initPool wa d c⟩).final.wins
        = (((runLoop wa ins fuel
            ⟨false, initPool wa d c⟩).final.wins).map Win.handle).map
            Call.destroy := by
      simp [cleanupCalls, List.map_map, Function.comp]
    rw [hcc, hmap, List.count_map_of_injective _ Call.destroy hinj]
    exact List.count_eq_one_of_mem (initPoolAux_handles_nodup wa d c WINDOW_COUNT 0) hmem

/-- Witness for C2 at concrete inputs. -/
theorem spec_c2_quit_and_cleanup_witness :
    (runLoop waW insW 1 ⟨false, initPool waW drawsW createOkW⟩).final.quit = true ∧
    ((runLoop waW insW 5 ⟨false, initPool waW drawsW createOkW⟩).frames ≤ 1 ∧
     ∀ h ∈ (initPool waW drawsW createOkW).map Win.handle,
       (cleanupCalls
         (runLoop waW insW 5 ⟨false, initPool waW drawsW createOkW⟩).final.wins).count
         (Call.destroy h) = 1) :=
  ⟨by decide, spec_c2_quit_and_cleanup waW drawsW createOkW insW 0 5 (by decide)⟩

theorem runLoop_sleeps (wa : WorkArea) (fuel : Nat) :
    ∀ (ins : Nat → FrameInput) (s : LoopState) (k : Nat),
      k < (runLoop wa ins fuel s).frames →
      (runLoop wa ins fuel s).sleeps[k]? = some (sleepDuration ((ins k).elapsed)) := by
  induction fuel with
  | zero =>
    intro ins s k hk
    simp [runLoop] at hk
  | succ n ih =>
    intro ins s k hk
    by_cases h : s.quit = true
    · rw [runLoop_of_quit wa ins _ s h] at hk
      simp at hk
    · simp only [runLoop, h, Bool.false_eq_true, if_false] at hk ⊢
      cases k with
      | zero => simp [frame]
      | succ m =>
        have hm : m < (runLoop wa (fun j => ins (j + 1)) n
            (frame wa (ins 0) s).state).frames := by
          simpa using Nat.lt_of_succ_lt_succ hk
        simpa using ih (fun j => ins (j + 1)) (frame wa (ins 0) s).state m hm

/-- C4: the `k`-th executed frame sleeps for `sleepDuration` of that
frame's own elapsed time (independent of every other frame), and the
sleep equals `dt_target - elapsed` when the frame finished early, is zero
(never negative) when the frame took at least the target period. -/
theorem spec_c4_frame_pacing (wa : WorkArea) (ins : Nat → FrameInput)
    (fuel : Nat) (s : LoopState) (k : Nat) (e : ℚ)
    (hk : k < (runLoop wa ins fuel s).frames) :
    (runLoop wa ins fuel s).sleeps[k]? = some (sleepDuration ((ins k).elapsed)) ∧
    (e < dt_target → sleepDuration e = dt_target - e) ∧
    (dt_target ≤ e → sleepDuration e = 0) ∧
    0 ≤ sleepDuration e := by
  refine ⟨runLoop_sleeps wa fuel ins s k hk, ?_, ?_, ?_⟩
  · intro he
    have hpos : 0 < dt_target - e := by linarith
    simp [sleepDuration, hpos]
  · intro he
    have hneg : ¬ 0 < dt_target - e := by linarith
    simp [sleepDuration, hneg]
  · by_cases h0 : 0 < dt_target - e
    · simp only [sleepDuration, h0, if_true]
      linarith
    · simp [sleepDuration, h0]

/-- Witness for C4 at concrete inputs. -/
theorem spec_c4_frame_pacing_witness :
    0 < (runLoop waW insW 1 ⟨false, []⟩).frames ∧
    ((runLoop waW insW 1 ⟨false, []⟩).sleeps[0]?
        = some (sleepDuration ((insW 0).elapsed)) ∧
     ((1 : ℚ)/120 < dt_target → sleepDuration (1/120) = dt_target - 1/120) ∧
     (dt_target ≤ (1 : ℚ)/120 → sleepDuration (1/120) = 0) ∧
     0 ≤ sleepDuration ((1 : ℚ)/120)) :=
  ⟨by decide, spec_c4_frame_pacing waW insW 1 ⟨false, []⟩ 0 (1/120) (by decide)⟩

theorem initPoolAux_length (wa : WorkArea) (d : InitDraws) (c : Nat → Bool) :
    ∀ (n i m : Nat), m < n → (∀ j, j < m → c (i + j) = true) →
      c (i + m) = false → (initPoolAux wa d c i n).length = m := by
  intro n
  induction n with
  | zero =>
    intro i m hm
    exact absurd hm (Nat.not_lt_zero m)
  | succ nn ih =>
    intro i m hm hok hfail
    cases m with
    | zero =>
      have hc : c i = false := by simpa using hfail
      simp [initPoolAux, hc]
    | succ mm =>
      have hci : c i = true := by simpa using hok 0 (Nat.succ_pos mm)
      simp only [initPoolAux, hci, if_true, List.length_cons]
      have h1 : ∀ j, j < mm → c (i + 1 + j) = true := by
        intro j hj
        have := hok (j + 1) (Nat.succ_lt_succ hj)
        rwa [show i + (j + 1) = i + 1 + j by omega] at this
      have h2 : c (i + 1 + mm) = false := by
        rwa [show i + (mm + 1) = i + 1 + mm by omega] at hfail
      rw [ih (i + 1) mm (Nat.lt_of_succ_lt_succ hm) h1 h2]

/-- C6: if window creation fails on the `k`-th request (requests before it
succeeding), initialization stops with exactly `k - 1` records in the
pool, and the main loop runs over that reduced set (its window list keeps
exactly those `k - 1` records through any number of frames). -/
theorem spec_c6_degraded_init (wa : WorkArea) (d : InitDraws) (c : Nat → Bool)
    (ins : Nat → FrameInput) (fuel k : Nat) (hk1 : 1 ≤ k)
    (hk2 : k ≤ WINDOW_COUNT) (hok : ∀ j, j < k - 1 → c j = true)
    (hfail : c (k - 1) = false) :
    (initPool wa d c).length = k - 1 ∧
    (runLoop wa ins fuel ⟨false, initPool wa d c⟩).final.wins.length = k - 1 := by
  have hlen : (initPool wa d c).length = k - 1 := by
    refine initPoolAux_length wa d c WINDOW_COUNT 0 (k - 1) (by omega) ?_ ?_
    · intro j hj
      simpa using hok j hj
    · simpa using hfail
  refine ⟨hlen, ?_⟩
  have hmap := runLoop_map wa Win.handle (fun j w => stepWin_handle wa j w)
    fuel ins ⟨false, initPool wa d c⟩
  have := congrArg List.length hmap
  simpa [hlen] using this

/-- Witness for C6 at concrete inputs (`k = 2`: the second create request
fails). -/
theorem spec_c6_degraded_init_witness :
    (1 ≤ 2 ∧ 2 ≤ WINDOW_COUNT ∧ (∀ j, j < 2 - 1 → createOkW j = true) ∧
      createOkW (2 - 1) = false) ∧
    ((initPool waW drawsW createOkW).length = 2 - 1 ∧
     (runLoop waW insW 4 ⟨false, initPool waW drawsW createOkW⟩).final.wins.length
        = 2 - 1) :=
  ⟨⟨by decide, by decide, by decide, by decide⟩,
   spec_c6_degraded_init waW drawsW createOkW insW 4 2 (by decide) (by decide)
     (by decide) (by decide)⟩

/-- C8: the color channels of every window record are unchanged by any
number of frames of the main loop, and each per-window step renders
exactly the record's stored color. -/
theorem spec_c8_color_immutable (wa : WorkArea) :
    (∀ (ins : Nat → FrameInput) (fuel : Nat) (s : LoopState),
      ((runLoop wa ins fuel s).final.wins).map colorOf = s.wins.map colorOf) ∧
    ∀ (j : Jitter) (win : Win),
      Call.render win.handle win.r win.g win.b ∈ (stepWin wa j win).2 := by
  constructor
  · intro ins fuel s
    exact runLoop_map wa colorOf (fun j w => stepWin_colorOf wa j w) fuel ins s
  · intro j win
    simp [stepWin]

/-- C9: `main` returns exit code 1 with no window created when the
windowing subsystem fails to initialize, and exit code 0 whenever it
terminates after a successful initialization. -/
theorem spec_c9_exit_codes (e : Env) (fuel : Nat) :
    (e.glfwInitOk = false → progMain e fuel = some ⟨1, [], []⟩) ∧
    ∀ m : MainResult, progMain e fuel = some m → e.glfwInitOk = true →
      m.exitCode = 0 := by
  constructor
  · intro h
    simp [progMain, h]
  · intro m hm hok
    simp only [progMain, hok, Bool.true_eq_false, if_false] at hm
    by_cases hq : (runLoop e.wa e.ins fuel
        ⟨false, initPool e.wa e.draws e.createOk⟩).final.quit = true
    · rw [if_pos hq] at hm
      obtain rfl : MainResult.mk 0
          ((initPool e.wa e.draws e.createOk).map Win.handle)
          (cleanupCalls (runLoop e.wa e.ins fuel
            ⟨false, initPool e.wa e.draws e.createOk⟩).final.wins) = m := by
        injection hm
      rfl
    · rw [if_neg hq] at hm
      exact absurd hm (by simp)

/-- Environment used in witnesses: the windowing subsystem fails to
initialize. -/
def envW : Env where
  glfwInitOk := false
  wa := waW
  draws := drawsW
  createOk := createOkW
  ins := insW

/-- Witness for C9 at concrete inputs. -/
theorem spec_c9_exit_codes_witness :
    envW.glfwInitOk = false ∧ progMain envW 3 = some ⟨1, [], []⟩ :=
  ⟨rfl, (spec_c9_exit_codes envW 3).1 rfl⟩
